import Mathlib

/-
Verification of the EVM/ContractVM atomic-transaction API of avalanchejs:
shallow embedding of src/apis/evm/api.ts, src/apis/evm/credentials.ts,
src/apis/evm/constants.ts and the unnamed ContractVMAPI source, with the
external collaborators (bintools, tx.ts, utxos.ts, the key-value store)
modelled from the specification where their code is not part of the
given sources.
-/

/-- Modelled from the spec: `ONEAVAX` comes from `utils/constants`, which is
not among the given sources; the spec fixes one unit of the native asset at
10^9. -/
def ONEAVAX : Int := 10 ^ 9

/-- Modelled from the spec: `tx.ts` is not among the given sources.  An
unsigned transaction is represented by its per-asset input and output
amounts, as lists of (assetID, amount) pairs; amounts are non-negative
arbitrary-precision integers. -/
structure UnsignedTx where
  inputs : List (Nat × Nat)
  outputs : List (Nat × Nat)
deriving DecidableEq

/-- Total amount carried for a given asset by a list of (assetID, amount)
pairs. -/
def assetTotal (l : List (Nat × Nat)) (assetID : Nat) : Nat :=
  (l.filter (fun p => p.1 == assetID)).foldl (fun s p => s + p.2) 0

/-- Modelled from the spec: the transaction's own total output amount in the
given asset (`UnsignedTx.getOutputTotal` of `tx.ts`). -/
def UnsignedTx.getOutputTotal (utx : UnsignedTx) (assetID : Nat) : Nat :=
  assetTotal utx.outputs assetID

/-- Modelled from the spec: burn = inputsTotal(asset) - outputsTotal(asset)
(`UnsignedTx.getBurn` of `tx.ts`). -/
def UnsignedTx.getBurn (utx : UnsignedTx) (assetID : Nat) : Int :=
  (assetTotal utx.inputs assetID : Int) - (assetTotal utx.outputs assetID : Int)

/-- `EVMAPI.checkGooseEgg` / `ContractVMAPI.checkGooseEgg` (identical code in
both classes): `outputTotal` is the explicit `outTotal` argument when
positive, else the transaction's own output total in the native asset, and
the transaction is accepted iff its burn is at most `10 * ONEAVAX` or at most
`outputTotal`. -/
def checkGooseEgg (avaxAssetID : Nat) (utx : UnsignedTx) (outTotal : Int) : Bool :=
  let outputTotal : Int :=
    if 0 < outTotal then outTotal else (utx.getOutputTotal avaxAssetID : Int)
  let fee : Int := utx.getBurn avaxAssetID
  if fee ≤ ONEAVAX * 10 ∨ fee ≤ outputTotal then true else false

/-- C1: the fee-sanity guard accepts iff the burn in the native asset is at
most max(10 x one native unit, outputTotal), where outputTotal is the
explicit argument when positive and the transaction's own output total
otherwise; with oneUnit = 10^9: burn 5x10^9 with outputTotal 0 is accepted,
burn 2x10^10 with outputTotal 10^9 is rejected, and burn 0 is always
accepted. -/
theorem checkGooseEgg_accepts_iff :
    (∀ (aid : Nat) (utx : UnsignedTx) (outTotal : Int),
      checkGooseEgg aid utx outTotal = true ↔
        utx.getBurn aid ≤ max (10 * ONEAVAX)
          (if 0 < outTotal then outTotal else (utx.getOutputTotal aid : Int))) ∧
    checkGooseEgg 0 (UnsignedTx.mk [(0, 5 * 10 ^ 9)] []) 0 = true ∧
    checkGooseEgg 0 (UnsignedTx.mk [(0, 2 * 10 ^ 10)] []) (10 ^ 9) = false ∧
    (∀ (aid : Nat) (utx : UnsignedTx) (outTotal : Int),
      utx.getBurn aid = 0 → checkGooseEgg aid utx outTotal = true) := by
  refine ⟨?_, by decide, by decide, ?_⟩
  · intro aid utx outTotal
    have hmax : utx.getBurn aid ≤ max (10 * ONEAVAX)
        (if 0 < outTotal then outTotal else (utx.getOutputTotal aid : Int)) ↔
        utx.getBurn aid ≤ ONEAVAX * 10 ∨
          utx.getBurn aid ≤ (if 0 < outTotal then outTotal else (utx.getOutputTotal aid : Int)) := by
      rw [le_max_iff, mul_comm]
    rw [hmax]
    unfold checkGooseEgg
    by_cases h : utx.getBurn aid ≤ ONEAVAX * 10 ∨
        utx.getBurn aid ≤ (if 0 < outTotal then outTotal else (utx.getOutputTotal aid : Int))
    · simp only [h, if_pos, iff_true]
    · simp only [h, if_neg, iff_false]
      simp
  · intro aid utx outTotal h
    unfold checkGooseEgg
    rw [h]
    have hpos : (0 : Int) ≤ ONEAVAX * 10 := by unfold ONEAVAX; norm_num
    simp [hpos]

/-- Witness for C1: the always-accept-at-zero-burn clause applied at a
concrete transaction with burn 0. -/
theorem checkGooseEgg_accepts_iff_witness :
    checkGooseEgg 0 (UnsignedTx.mk [(0, 7)] [(0, 7)]) 5 = true :=
  checkGooseEgg_accepts_iff.2.2.2 0 (UnsignedTx.mk [(0, 7)] [(0, 7)]) 5 (by decide)

/-- `EVMAPI.getAVAXAssetID`: in the given source the whole cache-refresh body
(the `getAssetDescription` lookup and the cache write) is commented out, so
the method returns the cached field unchanged regardless of the `refresh`
argument.  The state is the cached `AVAXAssetID` field; the result is
(returned value, new cached field, whether the external lookup was issued). -/
def EVM.getAVAXAssetID (st : Option (List Nat)) (refresh : Bool) :
    Option (List Nat) × Option (List Nat) × Bool :=
  (st, st, false)

/-- `ContractVMAPI.getAVAXAssetID`: returns the cached field unless it is
absent or `refresh` is true; in that case it issues `getStakingAssetID`
(whose textual response is `stakingAssetID`), cb58-decodes it (`cb58Decode`
models `bintools.cb58Decode`, whose code is not among the given sources),
caches and returns the decoded bytes.  The result is (returned value, new
cached field, whether the external lookup was issued). -/
def ContractVM.getAVAXAssetID (cb58Decode : String → List Nat)
    (stakingAssetID : String) (st : Option (List Nat)) (refresh : Bool) :
    List Nat × Option (List Nat) × Bool :=
  match st, refresh with
  | none, _ => (cb58Decode stakingAssetID, some (cb58Decode stakingAssetID), true)
  | some _, true => (cb58Decode stakingAssetID, some (cb58Decode stakingAssetID), true)
  | some v, false => (v, some v, false)

/-- C2: the claim fails on `EVMAPI`: its `getAVAXAssetID` never issues the
external lookup and never fills the cache, even when the cache is absent or
the refresh flag is set, because the lookup body is commented out in the
source — contradicting the method's own doc comment ("Refresh = true will
bust the cache").  `ContractVMAPI` behaves as the claim states. -/
theorem evm_getAVAXAssetID_no_lookup :
    (∀ (st : Option (List Nat)) (refresh : Bool),
      EVM.getAVAXAssetID st refresh = (st, st, false)) ∧
    EVM.getAVAXAssetID none true = (none, none, false) ∧
    (∀ (dec : String → List Nat) (s : String) (v : List Nat),
      ContractVM.getAVAXAssetID dec s (some v) false = (v, some v, false)) ∧
    (∀ (dec : String → List Nat) (s : String) (v : List Nat),
      ContractVM.getAVAXAssetID dec s (some v) true =
        (dec s, some (dec s), true)) ∧
    (∀ (dec : String → List Nat) (s : String) (refresh : Bool),
      ContractVM.getAVAXAssetID dec s none refresh =
        (dec s, some (dec s), true)) :=
  ⟨fun _ _ => rfl, rfl, fun _ _ _ => rfl, fun _ _ _ => rfl, fun _ _ _ => rfl⟩

/-- Modelled from the spec: `PlatformChainID` comes from `utils/constants`,
which is not among the given sources; it is the canonical platform-chain
identifier the ContractVM API defaults to. -/
def PlatformChainID : String := "11111111111111111111111111111111LpoYY"

/-- The `blockchainID` argument of `refreshBlockchainID` as the source's
`typeof` dispatch sees it: absent (`undefined`), a string, or a present
value of any other shape (which falls through both `typeof` tests to the
final `return false`). -/
inductive BlockchainIDArg where
  | missing
  | str (s : String)
  | other
deriving DecidableEq

/-- `EVMAPI.refreshBlockchainID`: `cChainDefault` models
`Defaults.network[netid].C.blockchainID` when network defaults exist for the
current network (`none` when they do not); `st` is the current
`blockchainID` field.  An absent argument with defaults adopts the C-chain
default; a string argument is adopted; an absent argument without defaults
and a present non-string argument both leave the field unchanged and return
false.  Result: (new `blockchainID` field, returned boolean). -/
def EVM.refreshBlockchainID (cChainDefault : Option String)
    (blockchainID : BlockchainIDArg) (st : String) : String × Bool :=
  match blockchainID, cChainDefault with
  | BlockchainIDArg.missing, some dflt => (dflt, true)
  | BlockchainIDArg.str b, _ => (b, true)
  | BlockchainIDArg.missing, none => (st, false)
  | BlockchainIDArg.other, _ => (st, false)

/-- `ContractVMAPI.refreshBlockchainID`: identical structure, but adopts the
constant `PlatformChainID` when defaulting; `defaultsExist` models
`typeof Defaults.network[netid] !== "undefined"`. -/
def ContractVM.refreshBlockchainID (defaultsExist : Bool)
    (blockchainID : BlockchainIDArg) (st : String) : String × Bool :=
  match blockchainID, defaultsExist with
  | BlockchainIDArg.missing, true => (PlatformChainID, true)
  | BlockchainIDArg.str b, _ => (b, true)
  | BlockchainIDArg.missing, false => (st, false)
  | BlockchainIDArg.other, _ => (st, false)

/-- C7: `refreshBlockchainID` returns a boolean and never throws: with no
explicit chain ID and existing network defaults it adopts the designated
default chain (the C-chain default for `EVMAPI`, `PlatformChainID` for
`ContractVMAPI`) and returns true; with an explicit string it adopts that ID
and returns true; in every other case it leaves the field unchanged and
returns false. -/
theorem refreshBlockchainID_cases :
    (∀ (c st : String),
      EVM.refreshBlockchainID (some c) BlockchainIDArg.missing st = (c, true)) ∧
    (∀ (d : Option String) (s st : String),
      EVM.refreshBlockchainID d (BlockchainIDArg.str s) st = (s, true)) ∧
    (∀ (st : String),
      EVM.refreshBlockchainID none BlockchainIDArg.missing st = (st, false)) ∧
    (∀ (d : Option String) (st : String),
      EVM.refreshBlockchainID d BlockchainIDArg.other st = (st, false)) ∧
    (∀ (st : String),
      ContractVM.refreshBlockchainID true BlockchainIDArg.missing st =
        (PlatformChainID, true)) ∧
    (∀ (e : Bool) (s st : String),
      ContractVM.refreshBlockchainID e (BlockchainIDArg.str s) st = (s, true)) ∧
    (∀ (st : String),
      ContractVM.refreshBlockchainID false BlockchainIDArg.missing st = (st, false)) ∧
    (∀ (e : Bool) (st : String),
      ContractVM.refreshBlockchainID e BlockchainIDArg.other st = (st, false)) :=
  ⟨fun _ _ => rfl, fun _ _ _ => rfl, fun _ => rfl, fun _ _ => rfl, fun _ => rfl,
   fun _ _ _ => rfl, fun _ => rfl, fun _ _ => rfl⟩

/-- `EVMConstants.SECPCREDENTIAL` from `constants.ts`. -/
def SECPCREDENTIAL : Nat := 9

/-- A credential variant; `typeID` models the `_typeID` field of the class. -/
structure Credential where
  typeID : Nat
deriving DecidableEq

/-- `SECPCredential.getCredentialID` from `credentials.ts`: returns the
variant's `_typeID`. -/
def Credential.getCredentialID (c : Credential) : Nat := c.typeID

/-- The `SECPCredential` variant: its `_typeID` is
`EVMConstants.SECPCREDENTIAL`. -/
def SECPCredential : Credential := { typeID := SECPCREDENTIAL }

/-- `SelectCredentialClass` from `credentials.ts`: returns the
`SECPCredential` variant for the registered tag and throws for any other
tag. -/
def SelectCredentialClass (credid : Nat) : Except String Credential :=
  if credid = SECPCREDENTIAL then Except.ok SECPCredential
  else Except.error (("Error - SelectCredentialClass: unknown credid ") ++ toString credid)

/-- The tags registered in the credential dispatch registry of
`credentials.ts` (exactly one: `SECPCREDENTIAL`). -/
def registeredCredentialTags : List Nat := [SECPCREDENTIAL]

/-- C9: for every registered tag, `SelectCredentialClass` returns a variant
whose `getCredentialID` equals that tag; for every unregistered tag it
throws the unknown-credential error. -/
theorem selectCredentialClass_registry :
    (∀ tag, tag ∈ registeredCredentialTags →
      ∃ c, SelectCredentialClass tag = Except.ok c ∧ c.getCredentialID = tag) ∧
    (∀ tag, tag ∉ registeredCredentialTags →
      SelectCredentialClass tag =
        Except.error (("Error - SelectCredentialClass: unknown credid ") ++ toString tag)) := by
  constructor
  · intro tag htag
    have h9 : tag = SECPCREDENTIAL := by
      simpa [registeredCredentialTags] using htag
    subst h9
    exact ⟨SECPCredential, rfl, rfl⟩
  · intro tag htag
    have h9 : tag ≠ SECPCREDENTIAL := by
      simpa [registeredCredentialTags] using htag
    unfold SelectCredentialClass
    rw [if_neg h9]

/-- Witness for C9: the registered-tag clause applied at tag 9. -/
theorem selectCredentialClass_registry_witness :
    ∃ c, SelectCredentialClass 9 = Except.ok c ∧ c.getCredentialID = 9 :=
  selectCredentialClass_registry.1 9 (by decide)

/-- The characters of a string up to (excluding) the first dash: the chain
part `a.split("-")[0]` of an address string. -/
def takeUntilDash : List Char → List Char
  | [] => []
  | c :: cs => if c = '-' then [] else c :: takeUntilDash cs

/-- The chain-scoping part of an address string: the substring before the
first chain separator, i.e. `a.split("-")[0]` in `buildExportTx`. -/
def addressChainPart (a : String) : String := String.mk (takeUntilDash a.data)

/-- The distinct chain parts of a list of addresses, modelling the key set of
the `prefixes` object built in `buildExportTx`. -/
def distinctChainParts (toAddresses : List String) : List String :=
  (toAddresses.map addressChainPart).dedup

/-- The error taxonomy of the builder path of `api.ts`. -/
inductive EVMError where
  | missingChainID
  | invalidChainIDType
  | invalidChainIDLength
  | mixedDestinationChain
  | addressFormat (msg : String)
  | feeSanity
deriving DecidableEq

instance {ε α : Type _} [DecidableEq ε] [DecidableEq α] :
    DecidableEq (Except ε α) := fun x y =>
  match x, y with
  | Except.ok a, Except.ok b =>
      if h : a = b then Decidable.isTrue (h ▸ rfl)
      else Decidable.isFalse (fun hc => h (Except.ok.inj hc))
  | Except.error a, Except.error b =>
      if h : a = b then Decidable.isTrue (h ▸ rfl)
      else Decidable.isFalse (fun hc => h (Except.error.inj hc))
  | Except.ok _, Except.error _ => Decidable.isFalse (fun hc => Except.noConfusion hc)
  | Except.error _, Except.ok _ => Decidable.isFalse (fun hc => Except.noConfusion hc)

/-- The destination-prefix guard opening `buildExportTx`: the number of
distinct chain parts of `toAddresses` must be exactly one, otherwise the
mixed-destination-chain error is thrown. -/
def destPrefixCheck (toAddresses : List String) : Except EVMError Unit :=
  if (distinctChainParts toAddresses).length ≠ 1 then
    Except.error EVMError.mixedDestinationChain
  else Except.ok ()

/-- The `destinationChain` / `sourceChain` argument of the builders: absent,
textual, canonical bytes, or neither. -/
inductive ChainIDArg where
  | missing
  | text (s : String)
  | bytes (b : List Nat)
  | other
deriving DecidableEq

/-- The `destinationChain` validation of `buildExportTx` (`cb58Decode` models
`bintools.cb58Decode`, not among the given sources): absent raises the
missing-chain error, textual values are decoded, non-textual non-canonical
values raise the type error, and the canonical form must be exactly 32
bytes. -/
def validateDestinationChain (cb58Decode : String → List Nat) :
    ChainIDArg → Except EVMError (List Nat)
  | ChainIDArg.missing => Except.error EVMError.missingChainID
  | ChainIDArg.text s =>
      let b := cb58Decode s
      if b.length ≠ 32 then Except.error EVMError.invalidChainIDLength
      else Except.ok b
  | ChainIDArg.bytes b =>
      if b.length ≠ 32 then Except.error EVMError.invalidChainIDLength
      else Except.ok b
  | ChainIDArg.other => Except.error EVMError.invalidChainIDType

/-- The `sourceChain` validation of `buildImportTx`: same shape checks as the
export path but with no length check. -/
def validateSourceChain (cb58Decode : String → List Nat) :
    ChainIDArg → Except EVMError (List Nat)
  | ChainIDArg.missing => Except.error EVMError.missingChainID
  | ChainIDArg.text s => Except.ok (cb58Decode s)
  | ChainIDArg.bytes b => Except.ok b
  | ChainIDArg.other => Except.error EVMError.invalidChainIDType

/-- An entry of an address array handed to `_cleanAddressArray`: a string or
an address buffer. -/
inductive AddrInput where
  | str (s : String)
  | buf (b : List Nat)
deriving DecidableEq

/-- `EVMAPI._cleanAddressArray`: every string entry must parse under the
chain's address parsing (`parseAddress` models the chain-scoped
`bintools.parseAddress`, returning `none` on failure); a failing entry
throws the address-format error naming the `caller` label and the offending
string; buffer entries are rendered with `addrToString`
(`bintools.addressToString`). -/
def cleanAddressArray (parseAddress : String → Option (List Nat))
    (addrToString : List Nat → String) (caller : String) :
    List AddrInput → Except EVMError (List String)
  | [] => Except.ok []
  | AddrInput.str s :: rest =>
      match parseAddress s with
      | none => Except.error (EVMError.addressFormat
          (("Error - EVMAPI.") ++ caller ++ (": Invalid address format ") ++ s))
      | some _ =>
          match cleanAddressArray parseAddress addrToString caller rest with
          | Except.error e => Except.error e
          | Except.ok l => Except.ok (s :: l)
  | AddrInput.buf b :: rest =>
      match cleanAddressArray parseAddress addrToString caller rest with
      | Except.error e => Except.error e
      | Except.ok l => Except.ok (addrToString b :: l)

/-- The external collaborators and cached state a builder call reads.  The
`assembleExport`/`assembleImport` fields model the unsigned transactions
returned by the external `utxoset.buildExportTx`/`utxoset.buildImportTx`
(`utxos.ts`, not among the given sources). -/
structure BuildCtx where
  parseAddress : String → Option (List Nat)
  addrToString : List Nat → String
  cb58Decode : String → List Nat
  avaxAssetID : Nat
  assembleExport : UnsignedTx
  assembleImport : UnsignedTx

/-- `EVMAPI.buildExportTx`: destination-prefix guard, destination-chain
validation, from/change address cleaning, assembly through the external
utxo-set builder, then the goose-egg guard; a failing guard throws the
fee-sanity error, otherwise the assembled transaction is returned. -/
def buildExportTx (ctx : BuildCtx)
    (toAddresses fromAddresses changeAddresses : List String)
    (destinationChain : ChainIDArg) : Except EVMError UnsignedTx :=
  match destPrefixCheck toAddresses with
  | Except.error e => Except.error e
  | Except.ok _ =>
  match validateDestinationChain ctx.cb58Decode destinationChain with
  | Except.error e => Except.error e
  | Except.ok _ =>
  match cleanAddressArray ctx.parseAddress ctx.addrToString ("buildExportTx")
      (fromAddresses.map AddrInput.str) with
  | Except.error e => Except.error e
  | Except.ok _ =>
  match cleanAddressArray ctx.parseAddress ctx.addrToString ("buildExportTx")
      (changeAddresses.map AddrInput.str) with
  | Except.error e => Except.error e
  | Except.ok _ =>
  let builtUnsignedTx := ctx.assembleExport
  if checkGooseEgg ctx.avaxAssetID builtUnsignedTx 0 then Except.ok builtUnsignedTx
  else Except.error EVMError.feeSanity

/-- `EVMAPI.buildImportTx`: to/from/change address cleaning (note the source
passes the label `"buildBaseTx"` to `_cleanAddressArray` here), source-chain
validation, assembly through the external utxo-set builder, then the
goose-egg guard. -/
def buildImportTx (ctx : BuildCtx)
    (toAddresses fromAddresses changeAddresses : List String)
    (sourceChain : ChainIDArg) : Except EVMError UnsignedTx :=
  match cleanAddressArray ctx.parseAddress ctx.addrToString ("buildBaseTx")
      (toAddresses.map AddrInput.str) with
  | Except.error e => Except.error e
  | Except.ok _ =>
  match cleanAddressArray ctx.parseAddress ctx.addrToString ("buildBaseTx")
      (fromAddresses.map AddrInput.str) with
  | Except.error e => Except.error e
  | Except.ok _ =>
  match cleanAddressArray ctx.parseAddress ctx.addrToString ("buildBaseTx")
      (changeAddresses.map AddrInput.str) with
  | Except.error e => Except.error e
  | Except.ok _ =>
  match validateSourceChain ctx.cb58Decode sourceChain with
  | Except.error e => Except.error e
  | Except.ok _ =>
  let builtUnsignedTx := ctx.assembleImport
  if checkGooseEgg ctx.avaxAssetID builtUnsignedTx 0 then Except.ok builtUnsignedTx
  else Except.error EVMError.feeSanity

/-- A duplicate-free list whose elements all equal `p` and which contains `p`
is exactly `[p]`. -/
theorem nodup_all_eq_singleton {α : Type _} (p : α) :
    ∀ (ys : List α), ys.Nodup → (∀ y ∈ ys, y = p) → p ∈ ys → ys = [p] := by
  intro ys hnd hall hp
  cases ys with
  | nil => cases hp
  | cons a t =>
    have ha : a = p := hall a (List.mem_cons_self a t)
    have ht : t = [] := by
      cases t with
      | nil => rfl
      | cons b s =>
        have hb : b = p := hall b (by simp)
        have hmem : a ∈ b :: s := by rw [hb, ha]; simp
        exact absurd hmem (List.nodup_cons.mp hnd).1
    rw [ha, ht]

/-- A nonempty list all of whose elements equal `p` dedups to length one. -/
theorem dedup_length_one_of_all_eq {α : Type _} [DecidableEq α]
    (xs : List α) (p : α) (hne : xs ≠ []) (hall : ∀ x ∈ xs, x = p) :
    xs.dedup.length = 1 := by
  have hp : p ∈ xs := by
    cases xs with
    | nil => exact absurd rfl hne
    | cons a t => rw [← hall a (by simp)]; simp
  have h1 : xs.dedup = [p] :=
    nodup_all_eq_singleton p xs.dedup xs.nodup_dedup
      (fun y hy => hall y (List.mem_dedup.mp hy)) (List.mem_dedup.mpr hp)
  rw [h1]
  rfl

/-- A list with two distinct members does not dedup to length one. -/
theorem dedup_length_ne_one_of_two {α : Type _} [DecidableEq α]
    (xs : List α) (a b : α) (ha : a ∈ xs) (hb : b ∈ xs) (hab : a ≠ b) :
    xs.dedup.length ≠ 1 := by
  have hcard : 1 < xs.toFinset.card :=
    Finset.one_lt_card.mpr
      ⟨a, List.mem_toFinset.mpr ha, b, List.mem_toFinset.mpr hb, hab⟩
  have hlen := List.card_toFinset xs
  omega

/-- C5: a nonempty `toAddresses` list whose entries all share one
chain-scoping prefix passes the destination-prefix guard of `buildExportTx`;
a list with two distinct prefixes makes `buildExportTx` raise the
mixed-destination-chain error. -/
theorem buildExportTx_prefix_guard :
    (∀ (l : List String) (p : String), l ≠ [] →
      (∀ a ∈ l, addressChainPart a = p) → destPrefixCheck l = Except.ok ()) ∧
    (∀ (ctx : BuildCtx) (frm chg : List String) (dc : ChainIDArg)
        (l : List String) (a b : String), a ∈ l → b ∈ l →
      addressChainPart a ≠ addressChainPart b →
      buildExportTx ctx l frm chg dc = Except.error EVMError.mixedDestinationChain) := by
  constructor
  · intro l p hne hall
    have hlen : (distinctChainParts l).length = 1 := by
      unfold distinctChainParts
      refine dedup_length_one_of_all_eq (l.map addressChainPart) p ?_ ?_
      · simpa using hne
      · intro x hx
        obtain ⟨a, hal, hax⟩ := List.mem_map.mp hx
        rw [← hax]
        exact hall a hal
    unfold destPrefixCheck
    rw [if_neg (by omega)]
  · intro ctx frm chg dc l a b ha hb hab
    have hlen : (distinctChainParts l).length ≠ 1 := by
      unfold distinctChainParts
      exact dedup_length_ne_one_of_two (l.map addressChainPart)
        (addressChainPart a) (addressChainPart b)
        (List.mem_map.mpr ⟨a, ha, rfl⟩) (List.mem_map.mpr ⟨b, hb, rfl⟩) hab
    have hcheck : destPrefixCheck l = Except.error EVMError.mixedDestinationChain := by
      unfold destPrefixCheck
      rw [if_pos hlen]
    unfold buildExportTx
    rw [hcheck]

/-- Witness for C5: the shared-prefix clause applied at the one-element list
["C-addr"]. -/
theorem buildExportTx_prefix_guard_witness :
    destPrefixCheck [("C-addr")] = Except.ok () :=
  buildExportTx_prefix_guard.1 [("C-addr")] ("C") (by decide) (by decide)

/-- C10: an empty `toAddresses` list makes `buildExportTx` raise the same
mixed-destination-chain error as the multiple-prefix case, because the guard
passes exactly when the number of distinct chain prefixes is one, rejecting
both zero and two or more. -/
theorem buildExportTx_empty_toAddresses :
    (∀ (ctx : BuildCtx) (frm chg : List String) (dc : ChainIDArg),
      buildExportTx ctx [] frm chg dc = Except.error EVMError.mixedDestinationChain) ∧
    buildExportTx
      (BuildCtx.mk (fun _ => some []) (fun _ => ("a")) (fun _ => []) 0
        (UnsignedTx.mk [] []) (UnsignedTx.mk [] []))
      [("C-x"), ("X-y")] [] [] ChainIDArg.missing =
      Except.error EVMError.mixedDestinationChain ∧
    (∀ (l : List String),
      destPrefixCheck l = Except.ok () ↔ (distinctChainParts l).length = 1) := by
  refine ⟨?_, by decide, ?_⟩
  · intro ctx frm chg dc
    have hcheck : destPrefixCheck [] = Except.error EVMError.mixedDestinationChain := by
      decide
    unfold buildExportTx
    rw [hcheck]
  · intro l
    unfold destPrefixCheck
    by_cases h : (distinctChainParts l).length = 1
    · rw [if_neg (by omega)]
      simp [h]
    · rw [if_pos (by omega)]
      simp [h]

/-- C4: the `destinationChain` validation of `buildExportTx`: absent raises
the missing-chain error; textual values are decoded to canonical bytes and
length-checked; values of neither shape raise the type error; canonical
forms of length other than 32 raise the length error and length exactly 32
succeeds; in `buildExportTx` a wrong-length canonical destination raises the
length error whenever the prefix guard passes. -/
theorem validateDestinationChain_cases :
    (∀ (dec : String → List Nat),
      validateDestinationChain dec ChainIDArg.missing =
        Except.error EVMError.missingChainID) ∧
    (∀ (dec : String → List Nat) (s : String),
      validateDestinationChain dec (ChainIDArg.text s) =
        (if (dec s).length ≠ 32 then Except.error EVMError.invalidChainIDLength
         else Except.ok (dec s))) ∧
    (∀ (dec : String → List Nat),
      validateDestinationChain dec ChainIDArg.other =
        Except.error EVMError.invalidChainIDType) ∧
    (∀ (dec : String → List Nat) (b : List Nat), b.length ≠ 32 →
      validateDestinationChain dec (ChainIDArg.bytes b) =
        Except.error EVMError.invalidChainIDLength) ∧
    (∀ (dec : String → List Nat) (b : List Nat), b.length = 32 →
      validateDestinationChain dec (ChainIDArg.bytes b) = Except.ok b) ∧
    (∀ (ctx : BuildCtx) (toA frm chg : List String) (b : List Nat),
      b.length ≠ 32 → destPrefixCheck toA = Except.ok () →
      buildExportTx ctx toA frm chg (ChainIDArg.bytes b) =
        Except.error EVMError.invalidChainIDLength) := by
  refine ⟨fun _ => rfl, fun _ _ => rfl, fun _ => rfl, ?_, ?_, ?_⟩
  · intro dec b hb
    simp only [validateDestinationChain]
    rw [if_pos hb]
  · intro dec b hb
    simp only [validateDestinationChain]
    rw [if_neg (by omega)]
  · intro ctx toA frm chg b hb hpre
    have hval : validateDestinationChain ctx.cb58Decode (ChainIDArg.bytes b) =
        Except.error EVMError.invalidChainIDLength := by
      simp only [validateDestinationChain]
      rw [if_pos hb]
    unfold buildExportTx
    rw [hpre, hval]

/-- Witness for C4: the exact-32-byte success clause applied at a canonical
32-byte chain identifier. -/
theorem validateDestinationChain_cases_witness :
    validateDestinationChain (fun _ => []) (ChainIDArg.bytes (List.replicate 32 0)) =
      Except.ok (List.replicate 32 0) :=
  validateDestinationChain_cases.2.2.2.2.1 (fun _ => []) (List.replicate 32 0) (by decide)

/-- C6: in both builders the goose-egg guard runs on the fully assembled
unsigned transaction and gates the return: a successful build returns
exactly the assembled transaction and only under a passing guard; when all
prior validations pass and the guard rejects, the builder raises the
fee-sanity error; and under a rejecting guard no transaction is ever
returned. -/
theorem builders_goose_egg_guard :
    (∀ (ctx : BuildCtx) (toA frm chg : List String) (dc : ChainIDArg) (t : UnsignedTx),
      buildExportTx ctx toA frm chg dc = Except.ok t →
        t = ctx.assembleExport ∧ checkGooseEgg ctx.avaxAssetID t 0 = true) ∧
    (∀ (ctx : BuildCtx) (toA frm chg : List String) (dc : ChainIDArg),
      destPrefixCheck toA = Except.ok () →
      (∃ d, validateDestinationChain ctx.cb58Decode dc = Except.ok d) →
      (∃ f, cleanAddressArray ctx.parseAddress ctx.addrToString ("buildExportTx")
        (frm.map AddrInput.str) = Except.ok f) →
      (∃ c, cleanAddressArray ctx.parseAddress ctx.addrToString ("buildExportTx")
        (chg.map AddrInput.str) = Except.ok c) →
      checkGooseEgg ctx.avaxAssetID ctx.assembleExport 0 = false →
      buildExportTx ctx toA frm chg dc = Except.error EVMError.feeSanity) ∧
    (∀ (ctx : BuildCtx) (toA frm chg : List String) (dc : ChainIDArg),
      checkGooseEgg ctx.avaxAssetID ctx.assembleExport 0 = false →
      ∀ t, ¬ buildExportTx ctx toA frm chg dc = Except.ok t) ∧
    (∀ (ctx : BuildCtx) (toA frm chg : List String) (sc : ChainIDArg) (t : UnsignedTx),
      buildImportTx ctx toA frm chg sc = Except.ok t →
        t = ctx.assembleImport ∧ checkGooseEgg ctx.avaxAssetID t 0 = true) ∧
    (∀ (ctx : BuildCtx) (toA frm chg : List String) (sc : ChainIDArg),
      (∃ a, cleanAddressArray ctx.parseAddress ctx.addrToString ("buildBaseTx")
        (toA.map AddrInput.str) = Except.ok a) →
      (∃ f, cleanAddressArray ctx.parseAddress ctx.addrToString ("buildBaseTx")
        (frm.map AddrInput.str) = Except.ok f) →
      (∃ c, cleanAddressArray ctx.parseAddress ctx.addrToString ("buildBaseTx")
        (chg.map AddrInput.str) = Except.ok c) →
      (∃ d, validateSourceChain ctx.cb58Decode sc = Except.ok d) →
      checkGooseEgg ctx.avaxAssetID ctx.assembleImport 0 = false →
      buildImportTx ctx toA frm chg sc = Except.error EVMError.feeSanity) ∧
    (∀ (ctx : BuildCtx) (toA frm chg : List String) (sc : ChainIDArg),
      checkGooseEgg ctx.avaxAssetID ctx.assembleImport 0 = false →
      ∀ t, ¬ buildImportTx ctx toA frm chg sc = Except.ok t) := by
  refine ⟨?_, ?_, ?_, ?_, ?_, ?_⟩
  · intro ctx toA frm chg dc t h
    simp only [buildExportTx] at h
    repeat' split at h
    all_goals first
      | exact Except.noConfusion h
      | (obtain rfl := Except.ok.inj h
         exact ⟨rfl, by assumption⟩)
  · intro ctx toA frm chg dc h1 h2 h3 h4 hgf
    obtain ⟨d, h2⟩ := h2
    obtain ⟨f, h3⟩ := h3
    obtain ⟨c, h4⟩ := h4
    simp only [buildExportTx]
    rw [h1]
    simp only [h2, h3, h4, hgf]
    simp [hgf]
  · intro ctx toA frm chg dc hgf t h
    simp only [buildExportTx] at h
    repeat' split at h
    all_goals first
      | exact Except.noConfusion h
      | simp_all
  · intro ctx toA frm chg sc t h
    simp only [buildImportTx] at h
    repeat' split at h
    all_goals first
      | exact Except.noConfusion h
      | (obtain rfl := Except.ok.inj h
         exact ⟨rfl, by assumption⟩)
  · intro ctx toA frm chg sc h1 h2 h3 h4 hgf
    obtain ⟨a, h1⟩ := h1
    obtain ⟨f, h2⟩ := h2
    obtain ⟨c, h3⟩ := h3
    obtain ⟨d, h4⟩ := h4
    simp only [buildImportTx]
    rw [h1]
    simp only [h2, h3, h4, hgf]
    simp [hgf]
  · intro ctx toA frm chg sc hgf t h
    simp only [buildImportTx] at h
    repeat' split at h
    all_goals first
      | exact Except.noConfusion h
      | simp_all

/-- Witness for C6: the no-transaction-returned clause applied at a context
whose assembled export transaction burns 10^11 units (a rejecting guard). -/
theorem builders_goose_egg_guard_witness :
    ¬ buildExportTx
        (BuildCtx.mk (fun _ => some []) (fun _ => ("a")) (fun _ => []) 0
          (UnsignedTx.mk [(0, 10 ^ 11)] []) (UnsignedTx.mk [] []))
        [("C-x")] [] [] ChainIDArg.missing = Except.ok (UnsignedTx.mk [] []) :=
  builders_goose_egg_guard.2.2.1
    (BuildCtx.mk (fun _ => some []) (fun _ => ("a")) (fun _ => []) 0
      (UnsignedTx.mk [(0, 10 ^ 11)] []) (UnsignedTx.mk [] []))
    [("C-x")] [] [] ChainIDArg.missing (by decide) (UnsignedTx.mk [] [])

/-- C8: the claim fails on the caller label: `buildImportTx` hands the label
`"buildBaseTx"` to `_cleanAddressArray`, so the address-format error message
for an unparsable address names `buildBaseTx` — a method that does not exist
on the class — instead of the calling operation `buildImportTx` (while
`buildExportTx` passes its own name, showing the intent). -/
theorem buildImportTx_caller_label_bug :
    buildImportTx
      (BuildCtx.mk (fun _ => none) (fun _ => ("a")) (fun _ => []) 0
        (UnsignedTx.mk [] []) (UnsignedTx.mk [] []))
      [("X-bad")] [] [] (ChainIDArg.bytes []) =
      Except.error (EVMError.addressFormat
        ("Error - EVMAPI.buildBaseTx: Invalid address format X-bad")) ∧
    ("Error - EVMAPI.buildBaseTx: Invalid address format X-bad") ≠
      ("Error - EVMAPI.buildImportTx: Invalid address format X-bad") :=
  ⟨by decide, by decide⟩

/-- Modelled from the spec: `utxos.ts` is not among the given sources.  A
spendable output in serialized form: identity key (source transaction ID +
output index) and the rest of the serialized payload. -/
structure UTXO where
  key : String
  payload : String
deriving DecidableEq

/-- A spendable-output set: a list keyed by identity key, insertion
ordered. -/
abbrev UTXOSet := List UTXO

/-- Whether the set already holds the identity key. -/
def hasUTXOKey (s : UTXOSet) (k : String) : Bool := s.any (fun u => u.key == k)

/-- Modelled from the spec: keyed insertion is idempotent — re-adding an
existing identity key is a no-op unless `overwrite` is requested. -/
def addUTXO (s : UTXOSet) (u : UTXO) (overwrite : Bool) : UTXOSet :=
  if hasUTXOKey s u.key then
    if overwrite then s.map (fun v => if v.key == u.key then u else v) else s
  else s ++ [u]

/-- Bulk ingestion (`UTXOSet.addArray`); `overwrite` defaults to false at the
call sites of `getUTXOs`. -/
def addArray (s : UTXOSet) (l : List UTXO) (overwrite : Bool) : UTXOSet :=
  l.foldl (fun acc u => addUTXO acc u overwrite) s

/-- Modelled from the spec: the caller-selectable merge rules — at minimum
keep-existing-on-conflict, keep-incoming-on-conflict, and
union-no-conflict-expected. -/
inductive MergeRule where
  | keepExisting
  | keepIncoming
  | unionMerge
deriving DecidableEq

/-- Modelled from the spec: `UTXOSet.mergeByRule` folds the incoming set into
self under the selected conflict policy (union-no-conflict-expected keeps
the existing record on an unexpected conflict). -/
def mergeByRule (self incoming : UTXOSet) : MergeRule → UTXOSet
  | MergeRule.keepExisting => addArray self incoming false
  | MergeRule.keepIncoming => addArray self incoming true
  | MergeRule.unionMerge => addArray self incoming false

/-- `PersistanceOptions` from `utils/persistenceoptions` (not among the given
sources): cache name, overwrite policy and merge rule, as consumed by
`getUTXOs` through `getName`, `getOverwrite` and `getMergeRule`. -/
structure PersistanceOptions where
  name : String
  overwrite : Bool
  mergeRule : MergeRule

/-- Modelled from the spec: the external key-value store backing the local
UTXO cache, as a map from cache names to serialized collections. -/
def LocalDB : Type := String → Option (List UTXO)

/-- `this.db.get` composed with `this.db.has`. -/
def dbGet (db : LocalDB) (k : String) : Option (List UTXO) := db k

/-- Modelled from the spec: `this.db.set(key, value, overwrite)` honoring the
overwrite-vs-fail-if-exists policy. -/
def dbSet (db : LocalDB) (k : String) (v : List UTXO) (overwrite : Bool) : LocalDB :=
  fun q =>
    if q = k then
      match db k with
      | some e => if overwrite then some v else some e
      | none => some v
    else db q

/-- The persistence and merge tail of `EVMAPI.getUTXOs` /
`ContractVMAPI.getUTXOs` (identical code in both classes): `fetched` models
`response.data.result.utxos`; with a persistence descriptor and an existing
snapshot, the fresh fetch is added into the working set, the snapshot is
merged with the fetch under the selected rule, the merged strings are
written back under the overwrite policy and added (without overwrite) into
the working set; with no snapshot the fetch is written verbatim.  Returns
the UTXOSet handed to the caller and the updated store. -/
def getUTXOsPersist (fetched : List UTXO) (persistOpts : Option PersistanceOptions)
    (db : LocalDB) : UTXOSet × LocalDB :=
  match persistOpts with
  | none => (addArray [] fetched false, db)
  | some opts =>
    match dbGet db opts.name with
    | some selfArray =>
        let utxos := addArray [] fetched false
        let selfSet := addArray [] selfArray false
        let merged := mergeByRule selfSet utxos opts.mergeRule
        let db2 := dbSet db opts.name merged opts.overwrite
        (addArray utxos merged false, db2)
    | none =>
        let db2 := dbSet db opts.name fetched opts.overwrite
        (addArray [] fetched false, db2)

/-- Counterexample for C3: cache name "nm" holds a snapshot whose record at
key "k" has payload "old"; the fresh fetch carries payload "new" at the same
key; the merge rule keeps the existing record.  The value written back is
the merged snapshot (payload "old") but the collection returned to the
caller keeps the freshly fetched record (payload "new"), so the merged
result is not both the returned collection and the written value. -/
theorem getUTXOs_persist_counterexample :
    (getUTXOsPersist [UTXO.mk ("k") ("new")]
        (some (PersistanceOptions.mk ("nm") true MergeRule.keepExisting))
        (fun q => if q = ("nm") then some [UTXO.mk ("k") ("old")] else none)).1 =
      [UTXO.mk ("k") ("new")] ∧
    dbGet (getUTXOsPersist [UTXO.mk ("k") ("new")]
        (some (PersistanceOptions.mk ("nm") true MergeRule.keepExisting))
        (fun q => if q = ("nm") then some [UTXO.mk ("k") ("old")] else none)).2 ("nm") =
      some [UTXO.mk ("k") ("old")] ∧
    ¬ (some (getUTXOsPersist [UTXO.mk ("k") ("new")]
        (some (PersistanceOptions.mk ("nm") true MergeRule.keepExisting))
        (fun q => if q = ("nm") then some [UTXO.mk ("k") ("old")] else none)).1 =
      dbGet (getUTXOsPersist [UTXO.mk ("k") ("new")]
        (some (PersistanceOptions.mk ("nm") true MergeRule.keepExisting))
        (fun q => if q = ("nm") then some [UTXO.mk ("k") ("old")] else none)).2 ("nm")) := by
  refine ⟨by decide, by decide, by decide⟩

/-- C3 (amended): with a persistence descriptor and an existing snapshot, the
snapshot is merged with the fresh fetch under the caller-selected rule; the
merged result is the value written back when the overwrite policy permits
(the existing snapshot is kept when it does not), while the collection
returned to the caller is the freshly fetched set augmented, without
overwriting, by the merged result; with no existing snapshot the fresh fetch
is written verbatim and returned. -/
theorem getUTXOs_persist_amended :
    (∀ (fetched : List UTXO) (opts : PersistanceOptions) (db : LocalDB)
        (existing : List UTXO), dbGet db opts.name = some existing →
      (getUTXOsPersist fetched (some opts) db).1 =
        addArray (addArray [] fetched false)
          (mergeByRule (addArray [] existing false) (addArray [] fetched false)
            opts.mergeRule) false ∧
      dbGet (getUTXOsPersist fetched (some opts) db).2 opts.name =
        some (if opts.overwrite then
          mergeByRule (addArray [] existing false) (addArray [] fetched false)
            opts.mergeRule
        else existing)) ∧
    (∀ (fetched : List UTXO) (opts : PersistanceOptions) (db : LocalDB),
      dbGet db opts.name = none →
      (getUTXOsPersist fetched (some opts) db).1 = addArray [] fetched false ∧
      dbGet (getUTXOsPersist fetched (some opts) db).2 opts.name = some fetched) := by
  constructor
  · intro fetched opts db existing hdb
    have hdb2 : db opts.name = some existing := hdb
    constructor
    · simp only [getUTXOsPersist, hdb]
    · simp only [getUTXOsPersist, hdb]
      cases hov : opts.overwrite <;> simp [dbGet, dbSet, hdb2, hov]
  · intro fetched opts db hdb
    have hdb2 : db opts.name = none := hdb
    constructor
    · simp only [getUTXOsPersist, hdb]
    · simp only [getUTXOsPersist, hdb]
      simp [dbGet, dbSet, hdb2]

/-- Witness for C3 (amended): the existing-snapshot clause applied at a
concrete store holding an empty snapshot under the cache name "nm". -/
theorem getUTXOs_persist_amended_witness :
    (getUTXOsPersist [UTXO.mk ("k") ("new")]
        (some (PersistanceOptions.mk ("nm") true MergeRule.keepIncoming))
        (fun q => if q = ("nm") then some [] else none)).1 =
      addArray (addArray [] [UTXO.mk ("k") ("new")] false)
        (mergeByRule (addArray [] ([] : List UTXO) false)
          (addArray [] [UTXO.mk ("k") ("new")] false) MergeRule.keepIncoming) false ∧
    dbGet (getUTXOsPersist [UTXO.mk ("k") ("new")]
        (some (PersistanceOptions.mk ("nm") true MergeRule.keepIncoming))
        (fun q => if q = ("nm") then some [] else none)).2 ("nm") =
      some (if true then
        mergeByRule (addArray [] ([] : List UTXO) false)
          (addArray [] [UTXO.mk ("k") ("new")] false) MergeRule.keepIncoming
      else []) :=
  getUTXOs_persist_amended.1 [UTXO.mk ("k") ("new")]
    (PersistanceOptions.mk ("nm") true MergeRule.keepIncoming)
    (fun q => if q = ("nm") then some [] else none) [] (by decide)
